import Mathlib

/-!
Shallow embedding of `src/init.cpp` (`HPCG_Init` and its helper `startswith`)
from the HPCG benchmark repository, together with theorems settling the
specification claims about parameter resolution.

Modelling conventions:
* `iparams`, the raw ten-slot parameter buffer, is a function `Fin 10 → Int`
  (C `int` modelled as unbounded `Int`; the claims only involve small values).
* `sscanf(s, "%d", &v)` is modelled by `sscanfInt`, which follows C `%d`
  semantics: skip leading whitespace, optional sign, at least one digit,
  trailing characters ignored; returns `none` when no integer is matched.
* The build configuration modelled is the MPI + OpenMP one that the spec
  describes (a process group exists, a broadcast is issued when parameters
  came from the file).  `comm_rank`, `comm_size` and `numThreads` are inputs
  of the model, since they are environment facts queried by the code.
* `ReadHpcgDat` is not part of the sources; `readHpcgDat` below is modelled
  from the spec.
-/

/-- The raw ten-slot parameter buffer `iparams` of `HPCG_Init`:
`[nx, ny, nz, runningTime, pz, zl, zu, npx, npy, npz]`. -/
abbrev Iparams := Fin 10 → Int

/-- Write value `v` into slot `i` of the buffer (C `iparams[i] = v`). -/
def upd (ip : Iparams) (i : Fin 10) (v : Int) : Iparams :=
  fun k => if k = i then v else ip k

/-- Characters accepted by C `isspace`, which `%d` skips. -/
def isSpaceChar (c : Char) : Bool :=
  c = ' ' || c = '\t' || c = '\n' || c = '\r' || c = Char.ofNat 11 || c = Char.ofNat 12

/-- Decimal value of a digit string. -/
def digitsToNat (ds : List Char) : Nat :=
  ds.foldl (fun a c => a * 10 + (c.toNat - 48)) 0

/-- Model of `sscanf(s, "%d", &v)`: skip leading whitespace, optional `+`/`-`
sign, then at least one decimal digit; everything after the digits is
ignored.  `none` models `sscanf` returning a value other than 1. -/
def sscanfInt (cs : List Char) : Option Int :=
  match cs.dropWhile isSpaceChar with
  | '-' :: rest =>
      let ds := rest.takeWhile Char.isDigit
      if ds.isEmpty then none else some (-(digitsToNat ds : Int))
  | '+' :: rest =>
      let ds := rest.takeWhile Char.isDigit
      if ds.isEmpty then none else some ((digitsToNat ds : Int))
  | other =>
      let ds := other.takeWhile Char.isDigit
      if ds.isEmpty then none else some ((digitsToNat ds : Int))

/-- The ten flag strings `cparams` of `HPCG_Init`, in declaration order. -/
def cparams : Fin 10 → String :=
  !["--nx=", "--ny=", "--nz=", "--rt=", "--pz=", "--zl=", "--zu=", "--npx=", "--npy=", "--npz="]

/-- Model of `strncmp(s, pfx, strlen(pfx)) == 0`: the first argument is the
pattern, compared against the leading characters of the second. -/
def strncmpEq : List Char → List Char → Bool
  | [], _ => true
  | _ :: _, [] => false
  | c :: cs, d :: ds => c == d && strncmpEq cs ds

/-- The helper `startswith` of `init.cpp`. -/
def startswith (s pfx : String) : Bool :=
  strncmpEq pfx.data s.data

/-- Whether argument `arg` matches flag number `j` (C `startswith(argv[i], cparams[j])`). -/
def matchesPfx (j : Fin 10) (arg : String) : Bool :=
  startswith arg (cparams j)

/-- The characters after the flag text (C `argv[i] + strlen(cparams[j])`). -/
def pfxSuffix (j : Fin 10) (arg : String) : List Char :=
  arg.data.drop (cparams j).data.length

/-- Integer a matching flag argument stores into its slot: the parsed suffix,
or 0 when the suffix does not parse (C `if (sscanf(...) != 1) iparams[j] = 0`). -/
def parseOrZero (j : Fin 10) (arg : String) : Int :=
  match sscanfInt (pfxSuffix j arg) with
  | some v => v
  | none => 0

/-- Effect on the buffer of testing one argument against one flag
(the body of the inner `j` loop of the flag scan in `HPCG_Init`). -/
def applyPfx (arg : String) (j : Fin 10) (ip : Iparams) : Iparams :=
  if startswith arg (cparams j) then
    match sscanfInt (pfxSuffix j arg) with
    | some v => upd ip j v
    | none => upd ip j 0
  else ip

/-- Effect of one argument on the buffer: the inner loop `for (j = 0; j < nparams; ++j)`. -/
def pfxStep (ip : Iparams) (arg : String) : Iparams :=
  (List.finRange 10).foldl (fun acc j => applyPfx arg j acc) ip

/-- The positional scan of `HPCG_Init`
(`for (i = 0; i < nparams; ++i) if (argc <= i+1 || sscanf(argv[i+1], "%d", iparams+i) != 1 || iparams[i] < 10) iparams[i] = 0;`):
each slot `i` is written exactly once, from `argv[i+1]` when it exists,
parses, and is at least 10, and 0 otherwise.  `args` is `argv[1..argc-1]`.
Note the loop bound in the source is `nparams` (= 10), not 3. -/
def iparamsPositional (args : List String) : Iparams := fun i =>
  match args.get? i.val with
  | none => 0
  | some s =>
      match sscanfInt s.data with
      | none => 0
      | some v => if v < 10 then 0 else v

/-- The buffer after the whole command-line scan: the positional pass followed
by the flag pass over every argument in `argv` order. -/
def iparamsAfterCLI (args : List String) : Iparams :=
  args.foldl pfxStep (iparamsPositional args)

/-- Contents of the `hpcg.dat` configuration file as consumed by the loader:
three geometry integers, a runtime integer, and a process-grid triple. -/
structure HpcgDat where
  nx : Int
  ny : Int
  nz : Int
  rt : Int
  npx : Int
  npy : Int
  npz : Int

/-- Modelled from the spec: `ReadHpcgDat` (declared in `ReadHpcgDat.hpp`, source
not in the repository slice).  Per the spec it reads three geometry integers
into slots 0-2, a runtime integer into slot 3 unless told not to (the null
`rt` pointer case, here `fillRt = false`), and the process-grid triple into
slots 7-9; the other slots are untouched. -/
def readHpcgDat (dat : HpcgDat) (fillRt : Bool) (ip : Iparams) : Iparams :=
  let a := upd (upd (upd ip 0 dat.nx) 1 dat.ny) 2 dat.nz
  let b := if fillRt then upd a 3 dat.rt else a
  upd (upd (upd b 7 dat.npx) 8 dat.npy) 9 dat.npz

/-- The geometry test `! iparams[0] && ! iparams[1] && ! iparams[2]`. -/
def geometryAbsent (ip : Iparams) : Bool :=
  decide (ip 0 = 0) && decide (ip 1 = 0) && decide (ip 2 = 0)

/-- The buffer after the conditional file read: when no geometry came from the
command line, `ReadHpcgDat` is called, with the runtime slot filled only if
`--rt=` did not already set it (`if (iparams[3]) rt = 0;`). -/
def iparamsWithFile (args : List String) (dat : HpcgDat) : Iparams :=
  if geometryAbsent (iparamsAfterCLI args)
  then readHpcgDat dat (decide (iparamsAfterCLI args 3 = 0)) (iparamsAfterCLI args)
  else iparamsAfterCLI args

/-- One step of the inner `j` loop of the normalizer:
`if (iparams[(i+j)%3] > iparams[i]) iparams[i] = iparams[(i+j)%3];`. -/
def siblingLift (ip : Iparams) (i s : Fin 10) : Iparams :=
  if ip s > ip i then upd ip i (ip s) else ip

/-- The final clamp of the normalizer: `if (iparams[i] < 16) iparams[i] = 16;`. -/
def clampFloor (ip : Iparams) (i : Fin 10) : Iparams :=
  if ip i < 16 then upd ip i 16 else ip

/-- One iteration of the normalizer loop for dimension `i` with sibling slots
`s1 = (i+1)%3` and `s2 = (i+2)%3`: the guarded sibling lifts, then the clamp. -/
def normOne (ip : Iparams) (i s1 s2 : Fin 10) : Iparams :=
  clampFloor (if ip i < 16 then siblingLift (siblingLift ip i s1) i s2 else ip) i

/-- The normalizer loop `for (i = 0; i < 3; ++i)` of `HPCG_Init`, unrolled in
its fixed evaluation order 0, 1, 2. -/
def normalizePass (ip : Iparams) : Iparams :=
  normOne (normOne (normOne ip 0 1 2) 1 2 0) 2 0 1

/-- The substitution step exactly as the spec words it: a dimension below 16
is replaced by the maximum of the other two dimension values as they stand. -/
def specSub (ip : Iparams) (i s1 s2 : Fin 10) : Iparams :=
  if ip i < 16 then upd ip i (max (ip s1) (ip s2)) else ip

/-- One normalizer iteration as the spec words it: substitution, then clamp. -/
def normSpecOne (ip : Iparams) (i s1 s2 : Fin 10) : Iparams :=
  clampFloor (specSub ip i s1 s2) i

/-- The whole normalization pass as the spec words it, in index order 0, 1, 2. -/
def normalizeSpec (ip : Iparams) : Iparams :=
  normSpecOne (normSpecOne (normSpecOne ip 0 1 2) 1 2 0) 2 0 1

/-- The fields of `HPCG_Params` that `HPCG_Init` fills. -/
structure HPCG_Params where
  nx : Int
  ny : Int
  nz : Int
  runningTime : Int
  pz : Int
  zl : Int
  zu : Int
  npx : Int
  npy : Int
  npz : Int
  comm_rank : Nat
  comm_size : Nat
  numThreads : Nat

/-- Observable outcome of `HPCG_Init`: the filled parameter record, the return
status, and whether the file read and the broadcast were executed. -/
structure InitResult where
  params : HPCG_Params
  status : Int
  readFile : Bool
  broadcast : Bool

/-- Shallow embedding of `HPCG_Init` (MPI + OpenMP build): command-line scan,
conditional file read, normalization, broadcast of the buffer when parameters
came from the file, copy into `params`, rank/size/thread queries, `return 0`.
Every rank receives the same `argv` and there is one `hpcg.dat`, so each rank
computes the same buffer and the broadcast leaves the values unchanged; the
`broadcast` flag records that it is issued. -/
def HPCG_Init (args : List String) (dat : HpcgDat) (rank size nthreads : Nat) : InitResult :=
  { params :=
      { nx := normalizePass (iparamsWithFile args dat) 0
        ny := normalizePass (iparamsWithFile args dat) 1
        nz := normalizePass (iparamsWithFile args dat) 2
        runningTime := normalizePass (iparamsWithFile args dat) 3
        pz := normalizePass (iparamsWithFile args dat) 4
        zl := normalizePass (iparamsWithFile args dat) 5
        zu := normalizePass (iparamsWithFile args dat) 6
        npx := normalizePass (iparamsWithFile args dat) 7
        npy := normalizePass (iparamsWithFile args dat) 8
        npz := normalizePass (iparamsWithFile args dat) 9
        comm_rank := rank
        comm_size := size
        numThreads := nthreads }
    status := 0
    readFile := geometryAbsent (iparamsAfterCLI args)
    broadcast := geometryAbsent (iparamsAfterCLI args) }

/-- Whether a process of the given rank executes the `ReadHpcgDat` call: in the
source the call precedes any `MPI_Comm_rank` query and is guarded only by the
geometry test, so the rank does not enter the condition. -/
def executesFileRead (args : List String) (_rank : Nat) : Bool :=
  geometryAbsent (iparamsAfterCLI args)

/-- A concrete buffer used by witness theorems. -/
def ipex : Iparams := fun _ => 0

/-- A configuration file with no useful content, for concrete evaluations. -/
def dat0 : HpcgDat := ⟨0, 0, 0, 0, 0, 0, 0⟩

/-- A configuration file supplying geometry 32, runtime 60 and a unit grid. -/
def dat60 : HpcgDat := ⟨32, 32, 32, 60, 1, 1, 1⟩

lemma upd_self (ip : Iparams) (i : Fin 10) (v : Int) : upd ip i v i = v := by
  simp [upd]

lemma upd_ne (ip : Iparams) (i : Fin 10) (v : Int) (k : Fin 10) (h : k ≠ i) :
    upd ip i v k = ip k := by
  simp [upd, h]

lemma siblingLift_self (ip : Iparams) (i s : Fin 10) :
    siblingLift ip i s i = max (ip i) (ip s) := by
  unfold siblingLift
  split_ifs with h
  · rw [upd_self]
    exact (max_eq_right (le_of_lt h)).symm
  · push_neg at h
    exact (max_eq_left h).symm

lemma siblingLift_ne (ip : Iparams) (i s : Fin 10) (k : Fin 10) (h : k ≠ i) :
    siblingLift ip i s k = ip k := by
  unfold siblingLift
  split_ifs <;> simp [upd_ne _ _ _ _ h]

lemma clampFloor_self (ip : Iparams) (i : Fin 10) :
    clampFloor ip i i = max 16 (ip i) := by
  unfold clampFloor
  split_ifs with h
  · rw [upd_self]
    exact (max_eq_left (le_of_lt h)).symm
  · push_neg at h
    exact (max_eq_right h).symm

lemma clampFloor_ne (ip : Iparams) (i : Fin 10) (k : Fin 10) (h : k ≠ i) :
    clampFloor ip i k = ip k := by
  unfold clampFloor
  split_ifs <;> simp [upd_ne _ _ _ _ h]

lemma normOne_self (ip : Iparams) (i s1 s2 : Fin 10) (_h1 : s1 ≠ i) (h2 : s2 ≠ i) :
    normOne ip i s1 s2 i = if ip i < 16 then max 16 (max (ip s1) (ip s2)) else ip i := by
  unfold normOne
  by_cases hlt : ip i < 16
  · rw [if_pos hlt, clampFloor_self, siblingLift_self, siblingLift_self,
      siblingLift_ne _ _ _ _ h2, if_pos hlt]
    have h16 : ip i ≤ 16 := le_of_lt hlt
    simp only [max_def]
    split_ifs <;> omega
  · rw [if_neg hlt, clampFloor_self, if_neg hlt]
    push_neg at hlt
    exact max_eq_right hlt

lemma normOne_ne (ip : Iparams) (i s1 s2 : Fin 10) (k : Fin 10) (h : k ≠ i) :
    normOne ip i s1 s2 k = ip k := by
  unfold normOne
  rw [clampFloor_ne _ _ _ h]
  split_ifs with hlt
  · rw [siblingLift_ne _ _ _ _ h, siblingLift_ne _ _ _ _ h]
  · rfl

lemma normOne_ge (ip : Iparams) (i s1 s2 : Fin 10) (h1 : s1 ≠ i) (h2 : s2 ≠ i) :
    16 ≤ normOne ip i s1 s2 i := by
  rw [normOne_self _ _ _ _ h1 h2]
  split_ifs with h
  · exact le_max_left _ _
  · omega

lemma normSpecOne_self (ip : Iparams) (i s1 s2 : Fin 10) (_h1 : s1 ≠ i) (_h2 : s2 ≠ i) :
    normSpecOne ip i s1 s2 i = if ip i < 16 then max 16 (max (ip s1) (ip s2)) else ip i := by
  unfold normSpecOne specSub
  by_cases hlt : ip i < 16
  · rw [if_pos hlt, clampFloor_self, upd_self, if_pos hlt]
  · rw [if_neg hlt, clampFloor_self, if_neg hlt]
    push_neg at hlt
    exact max_eq_right hlt

lemma normSpecOne_ne (ip : Iparams) (i s1 s2 : Fin 10) (k : Fin 10) (h : k ≠ i) :
    normSpecOne ip i s1 s2 k = ip k := by
  unfold normSpecOne specSub
  rw [clampFloor_ne _ _ _ h]
  split_ifs with hlt
  · exact upd_ne _ _ _ _ h
  · rfl

lemma normOne_eq_spec (ip : Iparams) (i s1 s2 : Fin 10) (h1 : s1 ≠ i) (h2 : s2 ≠ i) :
    normOne ip i s1 s2 = normSpecOne ip i s1 s2 := by
  funext k
  by_cases hk : k = i
  · subst hk
    rw [normOne_self _ _ _ _ h1 h2, normSpecOne_self _ _ _ _ h1 h2]
  · rw [normOne_ne _ _ _ _ _ hk, normSpecOne_ne _ _ _ _ _ hk]

lemma normalizePass_eq_spec (ip : Iparams) : normalizePass ip = normalizeSpec ip := by
  unfold normalizePass normalizeSpec
  rw [normOne_eq_spec _ 0 1 2 (by decide) (by decide),
    normOne_eq_spec _ 1 2 0 (by decide) (by decide),
    normOne_eq_spec _ 2 0 1 (by decide) (by decide)]

lemma normalizePass_frame (ip : Iparams) (k : Fin 10)
    (h0 : k ≠ 0) (h1 : k ≠ 1) (h2 : k ≠ 2) : normalizePass ip k = ip k := by
  unfold normalizePass
  rw [normOne_ne _ _ _ _ _ h2, normOne_ne _ _ _ _ _ h1, normOne_ne _ _ _ _ _ h0]

lemma normalizePass_ge_dim0 (ip : Iparams) : 16 ≤ normalizePass ip 0 := by
  unfold normalizePass
  rw [normOne_ne _ _ _ _ _ (by decide), normOne_ne _ _ _ _ _ (by decide)]
  exact normOne_ge _ _ _ _ (by decide) (by decide)

lemma normalizePass_ge_dim1 (ip : Iparams) : 16 ≤ normalizePass ip 1 := by
  unfold normalizePass
  rw [normOne_ne _ _ _ _ _ (by decide)]
  exact normOne_ge _ _ _ _ (by decide) (by decide)

lemma normalizePass_ge_dim2 (ip : Iparams) : 16 ≤ normalizePass ip 2 := by
  unfold normalizePass
  exact normOne_ge _ _ _ _ (by decide) (by decide)

lemma applyPfx_eq (arg : String) (j : Fin 10) (ip : Iparams) :
    applyPfx arg j ip = if matchesPfx j arg then upd ip j (parseOrZero j arg) else ip := by
  unfold applyPfx matchesPfx parseOrZero
  cases hs : sscanfInt (pfxSuffix j arg) <;> simp [hs]

lemma applyPfx_ne (arg : String) (j : Fin 10) (ip : Iparams) (k : Fin 10) (h : k ≠ j) :
    applyPfx arg j ip k = ip k := by
  rw [applyPfx_eq]
  split_ifs <;> simp [upd_ne _ _ _ _ h]

lemma foldl_applyPfx_at (arg : String) (js : List (Fin 10)) (ip : Iparams) (j : Fin 10) :
    (js.foldl (fun acc j2 => applyPfx arg j2 acc) ip) j =
      if j ∈ js ∧ matchesPfx j arg = true then parseOrZero j arg else ip j := by
  induction js generalizing ip with
  | nil => simp
  | cons a as ih =>
    rw [List.foldl_cons, ih]
    by_cases hmem : j ∈ as ∧ matchesPfx j arg = true
    · rw [if_pos hmem, if_pos ⟨List.mem_cons_of_mem a hmem.1, hmem.2⟩]
    · rw [if_neg hmem]
      by_cases haj : j = a
      · subst haj
        rw [applyPfx_eq]
        by_cases hm : matchesPfx j arg = true
        · rw [if_pos hm, upd_self, if_pos ⟨List.mem_cons_self j as, hm⟩]
        · simp only [hm, if_false, Bool.false_eq_true]
          rw [if_neg (by tauto)]
      · rw [applyPfx_ne _ _ _ _ haj]
        have : ¬(j ∈ a :: as ∧ matchesPfx j arg = true) := by
          intro hc
          rcases List.mem_cons.1 hc.1 with h | h
          · exact haj h
          · exact hmem ⟨h, hc.2⟩
        rw [if_neg this]

lemma pfxStep_at (ip : Iparams) (arg : String) (j : Fin 10) :
    pfxStep ip arg j = if matchesPfx j arg = true then parseOrZero j arg else ip j := by
  unfold pfxStep
  rw [foldl_applyPfx_at]
  simp [List.mem_finRange]

lemma foldl_pfxStep_at (args : List String) (ip : Iparams) (j : Fin 10) :
    (args.foldl pfxStep ip) j =
      match (args.filter fun s => matchesPfx j s).getLast? with
      | none => ip j
      | some a => parseOrZero j a := by
  induction args using List.reverseRecOn with
  | nil => simp
  | append_singleton as a ih =>
    rw [List.foldl_append, List.foldl_cons, List.foldl_nil, pfxStep_at, List.filter_append]
    by_cases hm : matchesPfx j a = true
    · rw [if_pos hm]
      have : List.filter (fun s => matchesPfx j s) [a] = [a] := by simp [hm]
      rw [this, List.getLast?_concat]
    · rw [if_neg hm, ih]
      have hfalse : matchesPfx j a = false := by simpa using hm
      have : List.filter (fun s => matchesPfx j s) [a] = [] := by
        simp [List.filter_cons, hfalse]
      rw [this, List.append_nil]

lemma geometryAbsent_iff (ip : Iparams) :
    geometryAbsent ip = true ↔ (ip 0 = 0 ∧ ip 1 = 0 ∧ ip 2 = 0) := by
  simp [geometryAbsent, and_assoc]

lemma readHpcgDat_rt_of_false (dat : HpcgDat) (ip : Iparams) :
    readHpcgDat dat false ip 3 = ip 3 := rfl

lemma readHpcgDat_rt_of_true (dat : HpcgDat) (ip : Iparams) :
    readHpcgDat dat true ip 3 = dat.rt := rfl

lemma iparamsWithFile_rt (args : List String) (dat : HpcgDat) :
    iparamsWithFile args dat 3 =
      if geometryAbsent (iparamsAfterCLI args) = true ∧ iparamsAfterCLI args 3 = 0
      then dat.rt else iparamsAfterCLI args 3 := by
  unfold iparamsWithFile
  by_cases hg : geometryAbsent (iparamsAfterCLI args) = true
  · rw [if_pos hg]
    by_cases h3 : iparamsAfterCLI args 3 = 0
    · rw [decide_eq_true h3, readHpcgDat_rt_of_true, if_pos ⟨hg, h3⟩]
    · rw [decide_eq_false h3, readHpcgDat_rt_of_false, if_neg (by tauto)]
  · rw [if_neg hg, if_neg (by tauto)]

/-- C1: the normalizer handles the three geometry dimensions in fixed index
order 0, 1, 2; a dimension below 16 is replaced by the maximum of the other
two dimension values as they stand at that point (so it may read an already
updated sibling) and clamped to 16 when still below 16, hence every geometry
dimension ends at least 16.  The code pass agrees slot for slot with the
pass written exactly as the spec words it. -/
theorem c1_normalizer_rule (ip : Iparams) :
    (∀ k, normalizePass ip k = normalizeSpec ip k) ∧
    ∀ k : Fin 10, k.val < 3 → 16 ≤ normalizePass ip k := by
  constructor
  · intro k
    rw [normalizePass_eq_spec]
  · intro k hk
    fin_cases k
    · exact normalizePass_ge_dim0 ip
    · exact normalizePass_ge_dim1 ip
    · exact normalizePass_ge_dim2 ip
    all_goals exact absurd hk (by decide)

/-- C1 witness: the normalizer rule instantiated at an all-zero buffer. -/
theorem c1_witness : normalizePass ipex 0 = normalizeSpec ipex 0 ∧ 16 ≤ normalizePass ipex 0 :=
  ⟨(c1_normalizer_rule ipex).1 0, (c1_normalizer_rule ipex).2 0 (by decide)⟩

/-- C2: the file-defaults loader runs if and only if all three geometry slots
are 0 after command-line parsing, the broadcast is issued if and only if the
loader ran, and when the command line supplies any geometry neither the file
read nor the broadcast occurs. -/
theorem c2_loader_broadcast_iff (args : List String) (dat : HpcgDat) (r s t : Nat) :
    ((HPCG_Init args dat r s t).readFile = true ↔
      (iparamsAfterCLI args 0 = 0 ∧ iparamsAfterCLI args 1 = 0 ∧ iparamsAfterCLI args 2 = 0)) ∧
    (HPCG_Init args dat r s t).broadcast = (HPCG_Init args dat r s t).readFile ∧
    ((iparamsAfterCLI args 0 ≠ 0 ∨ iparamsAfterCLI args 1 ≠ 0 ∨ iparamsAfterCLI args 2 ≠ 0) →
      (HPCG_Init args dat r s t).readFile = false ∧
      (HPCG_Init args dat r s t).broadcast = false) := by
  refine ⟨geometryAbsent_iff _, rfl, ?_⟩
  intro hor
  have hfalse : geometryAbsent (iparamsAfterCLI args) = false := by
    cases hb : geometryAbsent (iparamsAfterCLI args)
    · rfl
    · exfalso
      have h3 := (geometryAbsent_iff _).1 hb
      rcases hor with h | h | h
      · exact h h3.1
      · exact h h3.2.1
      · exact h h3.2.2
  exact ⟨hfalse, hfalse⟩

/-- C2 witness: with `--nx=20` on the command line there is no file read and
no broadcast. -/
theorem c2_witness :
    (HPCG_Init ["--nx=20"] dat0 0 1 1).readFile = false ∧
    (HPCG_Init ["--nx=20"] dat0 0 1 1).broadcast = false :=
  (c2_loader_broadcast_iff ["--nx=20"] dat0 0 1 1).2.2 (Or.inl (by decide))

/-- C3 counterexample: a rank-1 process with an empty command line executes
the configuration-file read, refuting the claim that only rank 0 reads it;
in the source the `ReadHpcgDat` call is guarded only by the geometry test and
precedes the `MPI_Comm_rank` query. -/
theorem c3_counterexample : executesFileRead [] 1 = true ∧ (1 : Nat) ≠ 0 :=
  ⟨by decide, by decide⟩

/-- C3 amended: the configuration-file read is executed by every process
whose command line supplies no geometry, independently of its rank. -/
theorem c3_read_rank_independent (args : List String) (r r2 : Nat) :
    executesFileRead args r = executesFileRead args r2 ∧
    (executesFileRead args r = true ↔
      (iparamsAfterCLI args 0 = 0 ∧ iparamsAfterCLI args 1 = 0 ∧ iparamsAfterCLI args 2 = 0)) :=
  ⟨rfl, geometryAbsent_iff _⟩

/-- C4: the source scans `nparams` (= 10) positional arguments, not 3, against
the claim and the comment above the loop (`it's OK to read first three args`);
with arguments `20 20 20 50` the fourth positional argument lands in the
runtime slot even though no file is read. -/
theorem c4_positional_runtime_bug :
    (HPCG_Init ["20", "20", "20", "50"] dat0 0 1 1).params.runningTime = 50 ∧
    (HPCG_Init ["20", "20", "20", "50"] dat0 0 1 1).readFile = false :=
  ⟨by decide, by decide⟩

/-- C5 counterexample: with `--rt=0` on the command line and a file supplying
runtime 60, the resolved running time is 60, not the command-line value 0:
the null-pointer test `if (iparams[3]) rt = 0;` checks the parsed value, not
the presence of the flag. -/
theorem c5_rt_zero_counterexample :
    (HPCG_Init ["--rt=0"] dat60 0 1 1).params.runningTime = 60 ∧ (60 : Int) ≠ 0 :=
  ⟨by decide, by decide⟩

/-- C5 amended: if the runtime slot is nonzero after command-line parsing the
resolved running time equals that value regardless of the file content; if it
is zero and no geometry was given, the resolved running time is whatever the
file loader supplies. -/
theorem c5_runtime_precedence (args : List String) (dat : HpcgDat) (r s t : Nat) :
    (iparamsAfterCLI args 3 ≠ 0 →
      (HPCG_Init args dat r s t).params.runningTime = iparamsAfterCLI args 3) ∧
    (iparamsAfterCLI args 3 = 0 → iparamsAfterCLI args 0 = 0 → iparamsAfterCLI args 1 = 0 →
      iparamsAfterCLI args 2 = 0 →
      (HPCG_Init args dat r s t).params.runningTime = dat.rt) := by
  have hrt : (HPCG_Init args dat r s t).params.runningTime = iparamsWithFile args dat 3 :=
    normalizePass_frame _ _ (by decide) (by decide) (by decide)
  constructor
  · intro h3
    rw [hrt, iparamsWithFile_rt, if_neg (by tauto)]
  · intro h3 h0 h1 h2
    rw [hrt, iparamsWithFile_rt, if_pos ⟨(geometryAbsent_iff _).2 ⟨h0, h1, h2⟩, h3⟩]

/-- C5 witness: `--rt=30` resolves to running time 30 whatever the file says. -/
theorem c5_witness : (HPCG_Init ["--rt=30"] dat60 0 1 1).params.runningTime = 30 := by
  have h := (c5_runtime_precedence ["--rt=30"] dat60 0 1 1).1 (by decide)
  rw [h]
  decide

/-- C6: for each of the ten recognized flags, the flag scan leaves slot `j`
at the parse of the last argument matching flag `j` (an unparsable suffix
giving 0), leaves it at its positional value when no argument matches, and an
argument matching no flag changes nothing. -/
theorem c6_flag_last_match (args : List String) (j : Fin 10) (arg : String) (ip : Iparams)
    (hunk : ∀ j2 : Fin 10, matchesPfx j2 arg = false) :
    (iparamsAfterCLI args j =
      match (args.filter fun s => matchesPfx j s).getLast? with
      | none => iparamsPositional args j
      | some a => parseOrZero j a) ∧
    pfxStep ip arg = ip := by
  refine ⟨foldl_pfxStep_at args (iparamsPositional args) j, funext fun k => ?_⟩
  rw [pfxStep_at, hunk k]
  simp

/-- C6 witness: among `--zl=2 xyz --zl=9` the last `--zl=` occurrence wins,
and the unknown argument `xyz` is ignored. -/
theorem c6_witness :
    (iparamsAfterCLI ["--zl=2", "xyz", "--zl=9"] 5 =
      match (["--zl=2", "xyz", "--zl=9"].filter fun s => matchesPfx 5 s).getLast? with
      | none => iparamsPositional ["--zl=2", "xyz", "--zl=9"] 5
      | some a => parseOrZero 5 a) ∧
    pfxStep ipex "xyz" = ipex :=
  c6_flag_last_match ["--zl=2", "xyz", "--zl=9"] 5 "xyz" ipex (by decide)

/-- C7: with the same argument list and the same file content, two runs agree
on all ten resolved parameter fields, whatever the rank, group size and
thread count of each run. -/
theorem c7_determinism (args : List String) (dat : HpcgDat) (r1 s1 t1 r2 s2 t2 : Nat) :
    (HPCG_Init args dat r1 s1 t1).params.nx = (HPCG_Init args dat r2 s2 t2).params.nx ∧
    (HPCG_Init args dat r1 s1 t1).params.ny = (HPCG_Init args dat r2 s2 t2).params.ny ∧
    (HPCG_Init args dat r1 s1 t1).params.nz = (HPCG_Init args dat r2 s2 t2).params.nz ∧
    (HPCG_Init args dat r1 s1 t1).params.runningTime
      = (HPCG_Init args dat r2 s2 t2).params.runningTime ∧
    (HPCG_Init args dat r1 s1 t1).params.pz = (HPCG_Init args dat r2 s2 t2).params.pz ∧
    (HPCG_Init args dat r1 s1 t1).params.zl = (HPCG_Init args dat r2 s2 t2).params.zl ∧
    (HPCG_Init args dat r1 s1 t1).params.zu = (HPCG_Init args dat r2 s2 t2).params.zu ∧
    (HPCG_Init args dat r1 s1 t1).params.npx = (HPCG_Init args dat r2 s2 t2).params.npx ∧
    (HPCG_Init args dat r1 s1 t1).params.npy = (HPCG_Init args dat r2 s2 t2).params.npy ∧
    (HPCG_Init args dat r1 s1 t1).params.npz = (HPCG_Init args dat r2 s2 t2).params.npz :=
  ⟨rfl, rfl, rfl, rfl, rfl, rfl, rfl, rfl, rfl, rfl⟩

/-- C8: the initialization returns status 0 on every input. -/
theorem c8_returns_zero (args : List String) (dat : HpcgDat) (r s t : Nat) :
    (HPCG_Init args dat r s t).status = 0 := rfl

/-- C9: the normalization pass changes only the three geometry slots; every
slot of index 3 or more keeps its value. -/
theorem c9_frame (ip : Iparams) (k : Fin 10) (h : 3 ≤ k.val) : normalizePass ip k = ip k := by
  apply normalizePass_frame
  · intro he
    subst he
    exact absurd h (by decide)
  · intro he
    subst he
    exact absurd h (by decide)
  · intro he
    subst he
    exact absurd h (by decide)

/-- C9 witness: the frame property at the runtime slot of a concrete buffer. -/
theorem c9_witness : normalizePass ipex 3 = ipex 3 := c9_frame ipex 3 (by decide)

/-- C10: the seven non-geometry fields of the result equal the corresponding
slots produced by the parsing stage (command line plus conditional file read)
with no range check or floor, and a negative `--pz=-5` reaches the resolved
parameters unchanged. -/
theorem c10_passthrough :
    (∀ (args : List String) (dat : HpcgDat) (r s t : Nat),
      (HPCG_Init args dat r s t).params.runningTime = iparamsWithFile args dat 3 ∧
      (HPCG_Init args dat r s t).params.pz = iparamsWithFile args dat 4 ∧
      (HPCG_Init args dat r s t).params.zl = iparamsWithFile args dat 5 ∧
      (HPCG_Init args dat r s t).params.zu = iparamsWithFile args dat 6 ∧
      (HPCG_Init args dat r s t).params.npx = iparamsWithFile args dat 7 ∧
      (HPCG_Init args dat r s t).params.npy = iparamsWithFile args dat 8 ∧
      (HPCG_Init args dat r s t).params.npz = iparamsWithFile args dat 9) ∧
    (HPCG_Init ["--pz=-5"] dat0 0 1 1).params.pz = -5 := by
  constructor
  · intro args dat r s t
    refine ⟨?_, ?_, ?_, ?_, ?_, ?_, ?_⟩ <;>
      exact normalizePass_frame _ _ (by decide) (by decide) (by decide)
  · decide
